import Mathlib

/-!
Verification development for the docker-deploy-app management backend.

The definitions below are shallow embeddings of the Go source:

* `internal/docker/newt_injector.go` — the Newt (tunnel-agent) compose
  injector (`ProcessCompose`, `ValidateCompose`, `createNewtService`,
  `ensureNetworkConfiguration`, `validateNewtService`,
  `validateNetworkConfiguration`);
* `internal/models` — stack-name validation (`isValidStackName`,
  `DeploymentConfig.Validate`), backup/restore configuration validation
  (`BackupConfig.Validate`, `RestoreConfig.Validate`, `HasDeployment`);
* `internal/api/handlers` (deployments handler) — `Delete` and
  `updateDeploymentStatus`, modelled over an explicit store;
* `internal/backup/scheduler.go` (manager part) — `CreateBackup`,
  `performBackup`, `RestoreBackup`, `performRestore`,
  `updateBackupStatus`, `updateBackupRecord`, with the database row and
  the staging/archive files made explicit state, and the outcome of each
  fallible I/O step passed in as a boolean parameter;
* the streaming CFB encryption wrapper (`NewEncryptedReader`,
  `DecryptedReader.Read`, `EncryptionManager.VerifyKey`), with the AES
  block transform abstracted as an arbitrary function from 16-byte
  blocks to 16-byte blocks (the cipher is external library code; every
  theorem quantifies over the block transform).

Go maps are embedded as association lists processed in list order (a
determinization of Go's unordered map iteration); YAML (de)serialization
is elided, so compose-level operations act on the parsed document.
-/

/-! ## String helpers (Go `strings.Contains`, `strings.HasPrefix`, `strings.Join`) -/

/-- Boolean list-prefix test: does the first list start the second? -/
def listStartsWith : List Char → List Char → Bool
  | [], _ => true
  | _ :: _, [] => false
  | a :: as, b :: bs => if a = b then listStartsWith as bs else false

/-- Boolean substring (contiguous sublist) test on character lists. -/
def listContainsSub (needle : List Char) : List Char → Bool
  | [] => needle.isEmpty
  | b :: bs => listStartsWith needle (b :: bs) || listContainsSub needle bs

/-- Go `strings.Contains s sub`. -/
def strContains (s sub : String) : Bool := listContainsSub sub.data s.data

/-- Go `strings.HasPrefix s pre`. -/
def strStartsWith (s pre : String) : Bool := listStartsWith pre.data s.data

/-- Go `strings.Join l sep` (also `String.intercalate`, defined here for induction). -/
def joinSep (sep : String) : List String → String
  | [] => ""
  | [x] => x
  | x :: xs => x ++ sep ++ joinSep sep xs

/-- Go `strings.Split(p, ":")[0]`: the text before the first colon. -/
def hostPortOf (p : String) : String := ⟨p.data.takeWhile (fun c => c ≠ ':')⟩

/-! ## Association-list embedding of Go maps -/

/-- Lookup by key in an association list (the embedding of a Go map read). -/
def lookupS {α : Type} (k : String) : List (String × α) → Option α
  | [] => none
  | p :: rest => if p.1 = k then some p.2 else lookupS k rest

/-- Map write `m[k] = v`: replace existing entries for the key, else append. -/
def setS {α : Type} (k : String) (v : α) (l : List (String × α)) : List (String × α) :=
  if (lookupS k l).isSome then l.map (fun p => if p.1 = k then (k, v) else p)
  else l ++ [(k, v)]

/-- SQL `DELETE ... WHERE key = k` over an association list. -/
def removeKey {α : Type} (k : String) : List (String × α) → List (String × α)
  | [] => []
  | p :: rest => if p.1 = k then removeKey k rest else p :: removeKey k rest

/-! ## Compose document model (`internal/docker/compose.go`) -/

/-- Health-check block of a compose service. -/
structure ComposeHealthCheck where
  test : List String
  interval : String
  timeoutStr : String
  retries : Nat
  startPeriod : String
deriving DecidableEq, Repr

/-- One service of a compose document (`ComposeService`). -/
structure ComposeService where
  image : String
  containerName : String
  restart : String
  environment : List String
  ports : List String
  volumes : List String
  networks : List String
  dependsOn : List String
  healthCheck : Option ComposeHealthCheck
  labels : List (String × String)
deriving DecidableEq, Repr

/-- A declared network (`ComposeNetwork`). -/
structure ComposeNetwork where
  driver : String
  external : Bool
  name : String
  labels : List (String × String)
deriving DecidableEq, Repr

/-- A declared volume (`ComposeVolume`). -/
structure ComposeVolume where
  driver : String
  external : Bool
  name : String
deriving DecidableEq, Repr

/-- A parsed compose document (`DockerCompose`). -/
structure DockerCompose where
  version : String
  services : List (String × ComposeService)
  networks : List (String × ComposeNetwork)
  volumes : List (String × ComposeVolume)
deriving DecidableEq, Repr

/-! ## Newt injector (`internal/docker/newt_injector.go`) -/

/-- Injector configuration (`models.NewtConfig`, the fields the injector reads). -/
structure NewtConfig where
  endpoint : String
  newtID : String
  secret : String
  image : String
deriving DecidableEq, Repr

/-- Environment list produced by `models.NewtConfig.GetEnvironmentVars`. -/
def getEnvironmentVars (cfg : NewtConfig) : List String :=
  [ "PANGOLIN_ENDPOINT=" ++ cfg.endpoint
  , "NEWT_ID=" ++ cfg.newtID
  , "NEWT_SECRET=" ++ cfg.secret
  , "LOG_LEVEL=INFO"
  , "HEALTH_FILE=/tmp/healthy" ]

/-- Synthesized tunnel-agent service (`NewtInjector.createNewtService`). -/
def createNewtService (cfg : NewtConfig) : ComposeService :=
  { image := if cfg.image = "" then "fosrl/newt:latest" else cfg.image
  , containerName := "newt"
  , restart := "unless-stopped"
  , environment := getEnvironmentVars cfg
  , ports := []
  , volumes := ["/var/run/docker.sock:/var/run/docker.sock:ro"]
  , networks := ["app_network"]
  , dependsOn := []
  , healthCheck := some
      { test := ["CMD", "test", "-f", "/tmp/healthy"]
      , interval := "30s", timeoutStr := "10s", retries := 3, startPeriod := "60s" }
  , labels := [ ("app.type", "tunnel"), ("app.name", "newt")
              , ("app.managed", "true"), ("traefik.enable", "false") ] }

/-- Names of the three environment variables the newt service must declare. -/
def requiredEnvNames : List String := ["PANGOLIN_ENDPOINT", "NEWT_ID", "NEWT_SECRET"]

/-- Required environment variables missing from a service's environment list. -/
def missingEnvs (s : ComposeService) : List String :=
  requiredEnvNames.filter
    (fun req => !(s.environment.any (fun e => strStartsWith e (req ++ "="))))

/-- Validation of an existing newt service (`validateNewtService`); `some` is the
error message returned, `none` means the service passed. -/
def validateNewtService (s : ComposeService) : Option String :=
  if s.image = "" then some "newt service missing image"
  else if !(strContains s.image "newt") then
    some ("newt service using incorrect image: " ++ s.image)
  else if !(missingEnvs s).isEmpty then
    some ("missing required environment variables: " ++ joinSep ", " (missingEnvs s))
  else if !(s.volumes.any (fun v => strContains v "/var/run/docker.sock")) then
    some "newt service missing Docker socket mount"
  else none

/-- Network-configuration check (`validateNetworkConfiguration`). -/
def validateNetworkConfiguration (d : DockerCompose) : Option String :=
  if d.networks.isEmpty then
    some "no networks defined - services may not be able to communicate"
  else
    let without := (d.services.filter (fun p => p.2.networks.isEmpty)).map Prod.fst
    if without.isEmpty then none
    else some ("services without network configuration: " ++ joinSep ", " without)

/-- Keys of an association list with later duplicates dropped. -/
def uniqKeys : List String → List String
  | [] => []
  | k :: rest => k :: uniqKeys (rest.filter (fun x => x ≠ k))
termination_by l => l.length
decreasing_by
  simp only [List.length_cons]
  exact Nat.lt_succ_of_le (List.length_filter_le _ _)

/-- Host-port collision warnings (`ValidateCompose` port loop, in list order). -/
def portConflictWarnings (d : DockerCompose) : List String :=
  let pairs := d.services.flatMap (fun p => p.2.ports.map (fun q => (hostPortOf q, p.1)))
  (uniqKeys (pairs.map Prod.fst)).filterMap (fun k =>
    let svcs := (pairs.filter (fun q => q.1 = k)).map Prod.snd
    if svcs.length > 1 then
      some ("Port " ++ k ++ " is used by multiple services: " ++ joinSep ", " svcs)
    else none)

/-- Report produced by the injector (`ValidationResult`). -/
structure ValidationResult where
  valid : Bool
  hasNewt : Bool
  networkOK : Bool
  issues : List String
  warnings : List String
  suggestions : List String
deriving DecidableEq, Repr

/-- Read-only compose validation (`NewtInjector.ValidateCompose`). -/
def validateCompose (d : DockerCompose) : ValidationResult :=
  if d.services.isEmpty then
    { valid := false, hasNewt := false, networkOK := true
    , issues := ["No services defined in docker-compose file"]
    , warnings := [], suggestions := [] }
  else
    let (hasNewt, issues, valid) :=
      match lookupS "newt" d.services with
      | some s =>
        match validateNewtService s with
        | some err => (true, ["Newt service configuration error: " ++ err], false)
        | none => (true, [], true)
      | none => (false, [], true)
    let (netOK, warns) :=
      match validateNetworkConfiguration d with
      | some err => (false, [err])
      | none => (true, [])
    { valid := valid, hasNewt := hasNewt, networkOK := netOK
    , issues := issues
    , warnings := warns ++ portConflictWarnings d
    , suggestions :=
        (if hasNewt then [] else ["Add newt service for remote tunnel access"]) ++
        (if d.networks.isEmpty then ["Define custom networks for better service isolation"] else []) }

/-- Default network created by `ensureNetworkConfiguration`. -/
def defaultAppNetwork : ComposeNetwork :=
  { driver := "bridge", external := false, name := "", labels := [("app.managed", "true")] }

/-- Per-service step of `ensureNetworkConfiguration`: connect to `app_network`
without removing existing memberships. -/
def addAppNetwork (s : ComposeService) : ComposeService :=
  if s.networks = [] then { s with networks := ["app_network"] }
  else if "app_network" ∈ s.networks then s
  else { s with networks := s.networks ++ ["app_network"] }

/-- Network-wiring pass (`NewtInjector.ensureNetworkConfiguration`); in the
source this function always returns a nil error. -/
def ensureNetworkConfiguration (d : DockerCompose) : DockerCompose :=
  { d with
    networks := if d.networks = [] then [("app_network", defaultAppNetwork)] else d.networks
  , services := d.services.map (fun p => (p.1, addAppNetwork p.2)) }

/-- Output of `ProcessCompose`: the rewritten document and the report. -/
structure ProcessOut where
  doc : DockerCompose
  result : ValidationResult
deriving DecidableEq, Repr

/-- Service-map effect of `ProcessCompose`: keep an existing compliant newt
service, replace a non-compliant one wholesale, or add the synthesized one. -/
def injectStep (cfg : NewtConfig) (L : List (String × ComposeService)) :
    List (String × ComposeService) :=
  match lookupS "newt" L with
  | some ex =>
    match validateNewtService ex with
    | some _ => setS "newt" (createNewtService cfg) L
    | none => L
  | none => setS "newt" (createNewtService cfg) L

/-- Report produced by `ProcessCompose`, with `Valid` recomputed at the end
from the accumulated issues and `NetworkOK` set by the (never failing)
network-wiring pass. -/
def processReport (d : DockerCompose) : ValidationResult :=
  let r0 := validateCompose d
  let r1 :=
    match lookupS "newt" d.services with
    | some ex =>
      match validateNewtService ex with
      | some err =>
        { r0 with hasNewt := true
                , issues := r0.issues ++ [err]
                , suggestions := r0.suggestions ++ ["Updated existing newt service with correct configuration"] }
      | none => { r0 with hasNewt := true }
    | none =>
      { r0 with hasNewt := true
              , suggestions := r0.suggestions ++ ["Added newt service for tunnel connectivity"] }
  { r1 with networkOK := true, valid := r1.issues.isEmpty }

/-- Injection pass (`NewtInjector.ProcessCompose`) on a parsed document. -/
def processDoc (cfg : NewtConfig) (d : DockerCompose) : ProcessOut :=
  { doc := ensureNetworkConfiguration { d with services := injectStep cfg d.services }
  , result := processReport d }

/-! ## Stack-name validation (`internal/models`, `isValidStackName` and
`DeploymentConfig.Validate`) -/

/-- ASCII alphanumeric test, written exactly as the source's range checks. -/
def isAlnumCh (c : Char) : Bool :=
  (decide ('a' ≤ c) && decide (c ≤ 'z')) ||
  (decide ('A' ≤ c) && decide (c ≤ 'Z')) ||
  (decide ('0' ≤ c) && decide (c ≤ '9'))

/-- Characters the stack-name loop accepts: alphanumeric, `-`, `_`. -/
def isStackCh (c : Char) : Bool := isAlnumCh c || c = '-' || c = '_'

/-- Stack-name validator (`isValidStackName`). -/
def isValidStackName (name : String) : Bool :=
  if name.data.length = 0 || name.data.length > 63 then false
  else if name.data.all isStackCh then
    match name.data with
    | [] => false
    | c :: _ => isAlnumCh c
  else false

/-- Name grammar as the specification words it: 1 to 63 characters, all
alphanumeric or `-` or `_`, first character alphanumeric. -/
def stackNameSpecOK (name : String) : Bool :=
  decide (1 ≤ name.data.length) && decide (name.data.length ≤ 63) &&
  name.data.all isStackCh &&
  (match name.data with
   | [] => false
   | c :: _ => isAlnumCh c)

/-- Validation errors of the deployment-configuration validator. -/
inductive DepConfigError where
  | templateRequired | stackNameRequired | invalidStackName
  | newtConfigRequired | newtEndpointRequired | newtIDRequired | newtSecretRequired
deriving DecidableEq, Repr

/-- Request body for creating a deployment (`models.DeploymentConfig`). -/
structure DeploymentConfig where
  templateID : String
  stackName : String
  environment : List (String × String)
  newtConfig : Option NewtConfig
  autoStart : Bool
  includeNewt : Bool
deriving DecidableEq, Repr

/-- Validation of the newt sub-configuration (`models.NewtConfig.Validate`). -/
def newtConfigValidate (nc : NewtConfig) : Option DepConfigError :=
  if nc.endpoint.trim = "" then some .newtEndpointRequired
  else if nc.newtID.trim = "" then some .newtIDRequired
  else if nc.secret.trim = "" then some .newtSecretRequired
  else none

/-- Validation run at deployment creation (`models.DeploymentConfig.Validate`);
`none` means the request is accepted. -/
def deploymentConfigValidate (dc : DeploymentConfig) : Option DepConfigError :=
  if dc.templateID.trim = "" then some .templateRequired
  else if dc.stackName.trim = "" then some .stackNameRequired
  else if !(isValidStackName dc.stackName) then some .invalidStackName
  else if dc.includeNewt && dc.newtConfig.isNone then some .newtConfigRequired
  else
    match dc.newtConfig with
    | some nc => newtConfigValidate nc
    | none => none

/-! ## Deployment store and the delete handler
(`DeploymentsHandler.Delete`, `DeploymentsHandler.updateDeploymentStatus`) -/

/-- Deployment status enumeration (`models.DeploymentStatus`). -/
inductive DeploymentStatus where
  | pending | deploying | running | stopped | failed
deriving DecidableEq, Repr

/-- The columns of a deployment row the delete handler reads or mutates. -/
structure DeploymentRow where
  stackName : String
  status : DeploymentStatus
deriving DecidableEq, Repr

/-- A row of the deployment-log table. -/
structure DepLogRow where
  deploymentID : String
  message : String
deriving DecidableEq, Repr

/-- The relational store as the handler sees it. -/
structure DepStore where
  deployments : List (String × DeploymentRow)
  logs : List DepLogRow
deriving DecidableEq, Repr

/-- Outcome of the delete handler: 404, 500 from a failed stack stop, or 200. -/
inductive DeleteOutcome where
  | notFound | stopFailed | deleted
deriving DecidableEq, Repr

/-- Result of the delete handler together with the post-state. -/
structure DeleteResult where
  outcome : DeleteOutcome
  downInvoked : Bool
  store : DepStore
deriving DecidableEq, Repr

/-- Delete handler (`DeploymentsHandler.Delete`): if the deployment is
`running` the stack is first brought down (`downOk` is that call's outcome);
the record and its logs are then removed unconditionally. -/
def deleteDeployment (downOk : Bool) (id : String) (st : DepStore) : DeleteResult :=
  match lookupS id st.deployments with
  | none => { outcome := .notFound, downInvoked := false, store := st }
  | some d =>
    if d.status = .running then
      if downOk then
        { outcome := .deleted, downInvoked := true
        , store := { deployments := removeKey id st.deployments
                   , logs := st.logs.filter (fun l => decide (l.deploymentID ≠ id)) } }
      else { outcome := .stopFailed, downInvoked := true, store := st }
    else
      { outcome := .deleted, downInvoked := false
      , store := { deployments := removeKey id st.deployments
                 , logs := st.logs.filter (fun l => decide (l.deploymentID ≠ id)) } }

/-- Status write (`DeploymentsHandler.updateDeploymentStatus`): an
unconditional `UPDATE deployments SET status = s WHERE id = id`. -/
def updateDeploymentStatus (id : String) (s : DeploymentStatus) (st : DepStore) : DepStore :=
  { st with deployments :=
      st.deployments.map (fun p => if p.1 = id then (p.1, { p.2 with status := s }) else p) }

/-! ## Backup engine (`internal/backup/scheduler.go`, manager part, and
`internal/models/backup.go`) -/

/-- Backup status enumeration (`models.BackupStatus`). -/
inductive BackupStatus where
  | creating | completed | failed
deriving DecidableEq, Repr

/-- The backup database row as the manager reads and writes it. -/
structure BackupRec where
  id : String
  status : BackupStatus
  sizeBytes : Int
  storagePath : String
  deploymentIDs : List String
  completedAtSet : Bool
deriving DecidableEq, Repr

/-- State of the archive file on disk. -/
inductive ArchiveState where
  | absent | partialFile | complete
deriving DecidableEq, Repr

/-- Filesystem artifacts of one backup: the staging directory and the archive. -/
structure BackupFS where
  stagingExists : Bool
  archiveState : ArchiveState
deriving DecidableEq, Repr

/-- Status write (`Manager.updateBackupStatus`): sets the status column and
sets `completed_at` exactly when the new status is completed or failed. -/
def updateBackupStatus (s : BackupStatus) (r : BackupRec) : BackupRec :=
  { r with status := s
         , completedAtSet := match s with
             | .completed => true
             | .failed => true
             | .creating => false }

/-- Archive path chosen by `performBackup` (`storagePath/<id>.tar.gz`; the
storage root is elided). -/
def archivePathOf (id : String) : String := id ++ ".tar.gz"

/-- Capture pipeline (`Manager.performBackup`). `depOks` lists the outcome of
each per-deployment manifest write, `metaOk` the metadata write, `archiveOk`
the archive creation. The in-memory struct's status field still holds
`creating` when `updateBackupRecord` runs, and the deferred
`updateBackupStatus(completed)` always runs last. Returns the final database
row and the filesystem state. -/
def performBackup (depOks : List Bool) (metaOk archiveOk : Bool) (size : Int)
    (row : BackupRec) (fs : BackupFS) : BackupRec × BackupFS :=
  let body : BackupRec × BackupFS :=
    if depOks.contains false then
      (updateBackupStatus .failed row, fs)
    else if metaOk = false then
      (updateBackupStatus .failed row, fs)
    else if archiveOk = false then
      (updateBackupStatus .failed row, { fs with archiveState := .partialFile })
    else
      ({ row with
           status := .creating
           sizeBytes := size
           storagePath := archivePathOf row.id
           completedAtSet := true },
       { stagingExists := false, archiveState := .complete })
  (updateBackupStatus .completed body.1, body.2)

/-- Validation errors of `models.BackupConfig.Validate`. -/
inductive BackupCfgError where
  | nameRequired | noDeployments
deriving DecidableEq, Repr

/-- Backup-creation request (`models.BackupConfig`; deployments by ID). -/
structure BackupConfig where
  name : String
  includeVolumes : Bool
  encrypted : Bool
  deployments : List String
deriving DecidableEq, Repr

/-- Validator `models.BackupConfig.Validate`; never called by the manager. -/
def backupConfigValidate (cfg : BackupConfig) : Option BackupCfgError :=
  if cfg.name = "" then some .nameRequired
  else if cfg.deployments.isEmpty then some .noDeployments
  else none

/-- Observable effect of `Manager.CreateBackup` before the background capture
runs: the persisted row, whether the backup directory was created, whether the
capture goroutine was started, and the error returned to the caller. -/
structure CreateBackupEffect where
  record : Option BackupRec
  dirCreated : Bool
  captureStarted : Bool
  err : Option String
deriving DecidableEq, Repr

/-- Synchronous part of `Manager.CreateBackup`; `mkdirOk` and `saveOk` are the
outcomes of the directory creation and the initial row insert. -/
def createBackup (mkdirOk saveOk : Bool) (id : String) (cfg : BackupConfig) : CreateBackupEffect :=
  let row : BackupRec :=
    { id := id, status := .creating, sizeBytes := 0, storagePath := ""
    , deploymentIDs := cfg.deployments, completedAtSet := false }
  if mkdirOk = false then
    { record := none, dirCreated := false, captureStarted := false
    , err := some "failed to create backup directory" }
  else if saveOk = false then
    { record := none, dirCreated := true, captureStarted := false
    , err := some "failed to save backup record" }
  else
    { record := some row, dirCreated := true, captureStarted := true, err := none }

/-- Validation errors of `models.RestoreConfig.Validate`. -/
inductive RestoreCfgError where
  | backupRequired | noDeployments
deriving DecidableEq, Repr

/-- Restore request (`models.RestoreConfig`). -/
structure RestoreConfig where
  backupID : String
  selective : Bool
  deploymentIDs : List String
  overwriteExisting : Bool
  restoreVolumes : Bool
  testRestore : Bool
deriving DecidableEq, Repr

/-- Validator `models.RestoreConfig.Validate`; never called by the manager. -/
def restoreConfigValidate (rc : RestoreConfig) : Option RestoreCfgError :=
  if rc.backupID = "" then some .backupRequired
  else if rc.selective && rc.deploymentIDs.isEmpty then some .noDeployments
  else none

/-- Membership test `models.RestoreConfig.HasDeployment`. -/
def hasDeployment (rc : RestoreConfig) (id : String) : Bool :=
  if !rc.selective then true else rc.deploymentIDs.contains id

/-- Observable effect of the background restore (`Manager.performRestore`). -/
structure RestoreEffect where
  extractAttempted : Bool
  extracted : Bool
  restoredIDs : List String
deriving DecidableEq, Repr

/-- Background restore (`Manager.performRestore`): extract the archive, then
walk the captured deployment IDs, skipping those a selective request excludes
and mutating nothing in test mode. -/
def performRestore (extractOk : Bool) (b : BackupRec) (rc : RestoreConfig) : RestoreEffect :=
  if extractOk = false then
    { extractAttempted := true, extracted := false, restoredIDs := [] }
  else
    { extractAttempted := true, extracted := true
    , restoredIDs := b.deploymentIDs.filter (fun id => hasDeployment rc id && !rc.testRestore) }

/-- Entry point `Manager.RestoreBackup`: the only gate is the status check;
on success the background restore runs. -/
def restoreBackup (extractOk : Bool) (b : BackupRec) (rc : RestoreConfig) :
    Except String RestoreEffect :=
  if b.status ≠ .completed then .error "backup is not completed"
  else .ok (performRestore extractOk b rc)

/-! ## Streaming CFB encryption layer (`NewEncryptedReader`,
`DecryptedReader.Read`, `EncryptionManager.VerifyKey`). Bytes are numbers;
the AES block transform obtained from a key is an arbitrary function `E` on
byte lists whose output is one 16-byte keystream block. -/

/-- XOR of two byte lists, truncated to the shorter one (Go `xorBytes`). -/
def xorBytes : List Nat → List Nat → List Nat
  | [], _ => []
  | _ :: _, [] => []
  | a :: as, b :: bs => (a ^^^ b) :: xorBytes as bs

/-- CFB encryption keystream walk (Go `cipher.cfb`, `decrypt=false`): each
16-byte chunk of plaintext is XORed with the block transform of the register,
and the produced ciphertext chunk becomes the next register. -/
def cfbEncrypt (E : List Nat → List Nat) (reg : List Nat) (p : List Nat) : List Nat :=
  if h : p = [] then []
  else
    xorBytes (p.take 16) (E reg) ++
      cfbEncrypt E (xorBytes (p.take 16) (E reg)) (p.drop 16)
termination_by p.length
decreasing_by
  simp only [List.length_drop]
  have hp : 0 < p.length := List.length_pos.mpr h
  omega

/-- CFB decryption keystream walk (Go `cipher.cfb`, `decrypt=true`): the
incoming ciphertext chunk is copied into the register before XORing. -/
def cfbDecrypt (E : List Nat → List Nat) (reg : List Nat) (c : List Nat) : List Nat :=
  if h : c = [] then []
  else
    xorBytes (c.take 16) (E reg) ++ cfbDecrypt E (c.take 16) (c.drop 16)
termination_by c.length
decreasing_by
  simp only [List.length_drop]
  have hc : 0 < c.length := List.length_pos.mpr h
  omega

/-- The encrypting reader (`NewEncryptedReader`): a freshly generated IV is
emitted first, followed by the CFB ciphertext seeded with that IV. -/
def encryptStream (E : List Nat → List Nat) (iv p : List Nat) : List Nat :=
  iv ++ cfbEncrypt E iv p

/-- The decrypting reader (`DecryptedReader.Read`): the first 16 bytes are
consumed as the IV (failing when fewer are available), and the remainder is
CFB-decrypted. -/
def decryptStream (E : List Nat → List Nat) (data : List Nat) : Option (List Nat) :=
  if data.length < 16 then none
  else some (cfbDecrypt E (data.take 16) (data.drop 16))

/-- AES key-size acceptance of `aes.NewCipher`. -/
def validAesKeyLen (n : Nat) : Bool := n = 16 || n = 24 || n = 32

/-- Key verification (`EncryptionManager.VerifyKey`): read up to 1 KiB of the
archive, consume the IV, build the cipher for the supplied key, decrypt up to
100 bytes and discard them; `io.EOF` is tolerated. `E` is the block transform
of the supplied key and `keyLen` its length. -/
def verifyKey (E : List Nat → List Nat) (keyLen : Nat) (fileData : List Nat) :
    Except String Unit :=
  let testData := fileData.take 1024
  if testData.length = 0 then .ok ()
  else if testData.length < 16 then
    .error "key verification failed: unexpected EOF"
  else if validAesKeyLen keyLen = false then
    .error "key verification failed: invalid key size"
  else
    let _ := cfbDecrypt E (testData.take 16) ((testData.drop 16).take 100)
    .ok ()

/-! ## Basic lemmas about the association-list operations -/

theorem lookupS_map_val {α β : Type} (k : String) (f : α → β) :
    ∀ l : List (String × α),
      lookupS k (l.map (fun p => (p.1, f p.2))) = (lookupS k l).map f := by
  intro l
  induction l with
  | nil => rfl
  | cons p rest ih =>
    by_cases h : p.1 = k
    · simp [lookupS, h]
    · simp [lookupS, h, ih]

theorem lookupS_eq_none_iff {α : Type} (k : String) :
    ∀ l : List (String × α), lookupS k l = none ↔ ∀ p ∈ l, p.1 ≠ k := by
  intro l
  induction l with
  | nil => simp [lookupS]
  | cons p rest ih =>
    by_cases h : p.1 = k
    · simp [lookupS, h]
    · simp [lookupS, h, ih]

theorem lookupS_append_of_none {α : Type} (k : String) (l m : List (String × α))
    (h : lookupS k l = none) : lookupS k (l ++ m) = lookupS k m := by
  induction l with
  | nil => rfl
  | cons p rest ih =>
    by_cases hp : p.1 = k
    · simp [lookupS, hp] at h
    · simp [lookupS, hp] at h ⊢
      exact ih h

theorem lookupS_mapReplace {α : Type} (k : String) (v : α) :
    ∀ l : List (String × α), (lookupS k l).isSome →
      lookupS k (l.map (fun p => if p.1 = k then (k, v) else p)) = some v := by
  intro l
  induction l with
  | nil => intro h; simp [lookupS] at h
  | cons p rest ih =>
    intro h
    by_cases hp : p.1 = k
    · simp [lookupS, hp]
    · simp only [lookupS, hp, ite_false] at h
      simp only [List.map_cons, if_neg hp, lookupS, hp, ite_false]
      exact ih h

theorem lookupS_setS_self {α : Type} (k : String) (v : α) (l : List (String × α)) :
    lookupS k (setS k v l) = some v := by
  unfold setS
  by_cases h : (lookupS k l).isSome
  · rw [if_pos h]
    exact lookupS_mapReplace k v l h
  · rw [if_neg h]
    have hn : lookupS k l = none := by
      cases hl : lookupS k l with
      | none => rfl
      | some w => rw [hl] at h; simp at h
    rw [lookupS_append_of_none k l _ hn]
    simp [lookupS]

theorem setS_value_at_key {α : Type} (k : String) (v : α) (l : List (String × α)) :
    ∀ p ∈ setS k v l, p.1 = k → p.2 = v := by
  unfold setS
  by_cases h : (lookupS k l).isSome
  · simp only [h, if_true]
    intro p hp hk
    rcases List.mem_map.mp hp with ⟨q, hq, hqe⟩
    by_cases hq1 : q.1 = k
    · simp [hq1] at hqe; rw [← hqe]
    · simp [hq1] at hqe
      rw [← hqe] at hk
      exact absurd hk hq1
  · simp only [h, if_false]
    have hn : lookupS k l = none := by
      cases hl : lookupS k l with
      | none => rfl
      | some w => rw [hl] at h; simp at h
    intro p hp hk
    rcases List.mem_append.mp hp with hin | hin
    · exact absurd hk ((lookupS_eq_none_iff k l).mp hn p hin)
    · simp at hin; rw [hin]

theorem map_self_of_mem {α : Type} (f : α → α) :
    ∀ l : List α, (∀ x ∈ l, f x = x) → l.map f = l := by
  intro l
  induction l with
  | nil => intro; rfl
  | cons x rest ih =>
    intro h
    simp only [List.map_cons]
    rw [h x (List.mem_cons_self x rest), ih (fun y hy => h y (List.mem_cons_of_mem x hy))]

theorem setS_eq_self {α : Type} (k : String) (v : α) (l : List (String × α))
    (hsome : (lookupS k l).isSome) (hall : ∀ p ∈ l, p.1 = k → p.2 = v) :
    setS k v l = l := by
  unfold setS
  rw [if_pos hsome]
  apply map_self_of_mem
  intro p hp
  by_cases h : p.1 = k
  · simp only [h, if_true, ite_true]
    have := hall p hp h
    rw [← h, ← this]
  · simp [h]

theorem lookupS_removeKey {α : Type} (k : String) :
    ∀ l : List (String × α), lookupS k (removeKey k l) = none := by
  intro l
  induction l with
  | nil => rfl
  | cons p rest ih =>
    by_cases h : p.1 = k
    · simp [removeKey, h, ih]
    · simp [removeKey, h, lookupS, ih]

/-! ## Lemmas about the network-wiring pass -/

theorem addAppNetwork_mem (s : ComposeService) :
    "app_network" ∈ (addAppNetwork s).networks := by
  unfold addAppNetwork
  by_cases h0 : s.networks = []
  · simp [h0]
  · by_cases hmem : "app_network" ∈ s.networks
    · simp [h0, hmem]
    · simp [h0, hmem]

theorem addAppNetwork_of_mem (s : ComposeService)
    (h : "app_network" ∈ s.networks) : addAppNetwork s = s := by
  unfold addAppNetwork
  have h0 : s.networks ≠ [] := by
    intro he; rw [he] at h; simp at h
  simp [h0, h]

theorem addAppNetwork_idem (s : ComposeService) :
    addAppNetwork (addAppNetwork s) = addAppNetwork s :=
  addAppNetwork_of_mem _ (addAppNetwork_mem s)

theorem validateNewtService_addAppNetwork (s : ComposeService) :
    validateNewtService (addAppNetwork s) = validateNewtService s := by
  unfold addAppNetwork
  by_cases h0 : s.networks = []
  · simp only [h0, if_true, ite_true]
    rfl
  · by_cases hmem : "app_network" ∈ s.networks
    · simp [h0, hmem]
    · simp only [h0, hmem, if_false, ite_false]
      rfl

theorem ensureNetworkConfiguration_networks_ne_nil (d : DockerCompose) :
    (ensureNetworkConfiguration d).networks ≠ [] := by
  unfold ensureNetworkConfiguration
  by_cases h : d.networks = []
  · simp [h]
  · simp [h]

theorem ensureNetworkConfiguration_id (d : DockerCompose)
    (hn : d.networks ≠ [])
    (hs : ∀ p ∈ d.services, addAppNetwork p.2 = p.2) :
    ensureNetworkConfiguration d = d := by
  unfold ensureNetworkConfiguration
  rw [if_neg hn]
  rw [map_self_of_mem _ d.services (fun p hp => by rw [hs p hp])]

/-! ## Idempotence of the injection pass -/

theorem injectStep_of_valid {cfg : NewtConfig} {L : List (String × ComposeService)}
    {s : ComposeService} (h : lookupS "newt" L = some s)
    (hv : validateNewtService s = none) : injectStep cfg L = L := by
  unfold injectStep
  rw [h]
  dsimp only
  rw [hv]

theorem injectStep_of_invalid {cfg : NewtConfig} {L : List (String × ComposeService)}
    {s : ComposeService} {e : String} (h : lookupS "newt" L = some s)
    (hv : validateNewtService s = some e) :
    injectStep cfg L = setS "newt" (createNewtService cfg) L := by
  unfold injectStep
  rw [h]
  dsimp only
  rw [hv]

theorem injectStep_of_absent {cfg : NewtConfig} {L : List (String × ComposeService)}
    (h : lookupS "newt" L = none) :
    injectStep cfg L = setS "newt" (createNewtService cfg) L := by
  unfold injectStep
  rw [h]

theorem addAppNetwork_createNewtService (cfg : NewtConfig) :
    addAppNetwork (createNewtService cfg) = createNewtService cfg :=
  addAppNetwork_of_mem _ (by simp [createNewtService])

theorem newt_entries_eq_created (cfg : NewtConfig) (L : List (String × ComposeService)) :
    ∀ p ∈ (setS "newt" (createNewtService cfg) L).map (fun q => (q.1, addAppNetwork q.2)),
      p.1 = "newt" → p.2 = createNewtService cfg := by
  intro p hp hk
  rcases List.mem_map.mp hp with ⟨q, hq, he⟩
  rw [← he] at hk ⊢
  simp only at hk ⊢
  rw [setS_value_at_key "newt" _ L q hq hk]
  exact addAppNetwork_createNewtService cfg

theorem injectStep_stable (cfg : NewtConfig) (L : List (String × ComposeService)) :
    injectStep cfg ((injectStep cfg L).map (fun q => (q.1, addAppNetwork q.2))) =
      (injectStep cfg L).map (fun q => (q.1, addAppNetwork q.2)) := by
  cases hl : lookupS "newt" L with
  | some ex =>
    cases hv : validateNewtService ex with
    | none =>
      rw [injectStep_of_valid hl hv]
      have hlM : lookupS "newt" (L.map (fun q => (q.1, addAppNetwork q.2))) =
          some (addAppNetwork ex) := by
        rw [lookupS_map_val, hl]; rfl
      have hvM : validateNewtService (addAppNetwork ex) = none := by
        rw [validateNewtService_addAppNetwork, hv]
      exact injectStep_of_valid hlM hvM
    | some e =>
      rw [injectStep_of_invalid hl hv]
      have hlM : lookupS "newt"
          ((setS "newt" (createNewtService cfg) L).map (fun q => (q.1, addAppNetwork q.2))) =
          some (createNewtService cfg) := by
        rw [lookupS_map_val, lookupS_setS_self]
        simp [addAppNetwork_createNewtService]
      cases hv2 : validateNewtService (createNewtService cfg) with
      | none => exact injectStep_of_valid hlM hv2
      | some e2 =>
        rw [injectStep_of_invalid hlM hv2]
        apply setS_eq_self
        · rw [hlM]; rfl
        · exact newt_entries_eq_created cfg L
  | none =>
    rw [injectStep_of_absent hl]
    have hlM : lookupS "newt"
        ((setS "newt" (createNewtService cfg) L).map (fun q => (q.1, addAppNetwork q.2))) =
        some (createNewtService cfg) := by
      rw [lookupS_map_val, lookupS_setS_self]
      simp [addAppNetwork_createNewtService]
    cases hv2 : validateNewtService (createNewtService cfg) with
    | none => exact injectStep_of_valid hlM hv2
    | some e2 =>
      rw [injectStep_of_invalid hlM hv2]
      apply setS_eq_self
      · rw [hlM]; rfl
      · exact newt_entries_eq_created cfg L

/-- C2: the tunnel injector is idempotent — running `ProcessCompose` on its own
output document produces that document unchanged: the second pass adds no
service, no network and no network membership, and modifies no field of any
service, for every parsed compose document and every injector configuration. -/
theorem C2_processDoc_idempotent (cfg : NewtConfig) (d : DockerCompose) :
    (processDoc cfg (processDoc cfg d).doc).doc = (processDoc cfg d).doc := by
  have hsvc : (processDoc cfg d).doc.services =
      (injectStep cfg d.services).map (fun q => (q.1, addAppNetwork q.2)) := rfl
  have hstab : injectStep cfg (processDoc cfg d).doc.services = (processDoc cfg d).doc.services := by
    rw [hsvc]
    exact injectStep_stable cfg d.services
  show ensureNetworkConfiguration
      { (processDoc cfg d).doc with services := injectStep cfg (processDoc cfg d).doc.services } =
      (processDoc cfg d).doc
  rw [hstab]
  apply ensureNetworkConfiguration_id
  · exact ensureNetworkConfiguration_networks_ne_nil _
  · intro p hp
    rw [hsvc] at hp
    rcases List.mem_map.mp hp with ⟨q, _, he⟩
    rw [← he]
    exact addAppNetwork_idem q.2

/-! ## Lemmas about the deployment store -/

theorem lookupS_updateStatus (id : String) (s : DeploymentStatus) :
    ∀ l : List (String × DeploymentRow),
      lookupS id (l.map (fun p => if p.1 = id then (p.1, { p.2 with status := s }) else p)) =
        (lookupS id l).map (fun d => { d with status := s }) := by
  intro l
  induction l with
  | nil => rfl
  | cons p rest ih =>
    by_cases hp : p.1 = id
    · simp [lookupS, hp]
    · simp [lookupS, hp, ih]

/-- C3 counterexample: deleting a deployment whose status is `running` (with
the stack teardown succeeding) returns success and removes the record, where
the claim requires an `InvalidTransition` rejection that removes nothing. -/
theorem C3_delete_running_succeeds_counterexample :
    (deleteDeployment true "d1"
        { deployments := [("d1", { stackName := "demo", status := .running })]
        , logs := [ { deploymentID := "d1", message := "started" } ] }).outcome = .deleted ∧
    lookupS "d1"
      (deleteDeployment true "d1"
        { deployments := [("d1", { stackName := "demo", status := .running })]
        , logs := [ { deploymentID := "d1", message := "started" } ] }).store.deployments = none ∧
    (deleteDeployment true "d1"
        { deployments := [("d1", { stackName := "demo", status := .running })]
        , logs := [ { deploymentID := "d1", message := "started" } ] }).store.logs = [] := by
  refine ⟨rfl, rfl, rfl⟩

/-- C3 amended: no `InvalidTransition` mechanism exists. Deletion succeeds
from every persisted status: on a `running` deployment the handler first
tears the stack down and aborts (store untouched) only if that teardown
fails; from any non-running status (including `deploying`) it deletes the
record and its logs without invoking a teardown; and the status writer is an
unconditional overwrite, not a compare-and-swap. -/
theorem C3_delete_and_status_semantics (st : DepStore) (id : String) (d : DeploymentRow)
    (h : lookupS id st.deployments = some d) :
    (d.status = .running →
      (deleteDeployment false id st = { outcome := .stopFailed, downInvoked := true, store := st }) ∧
      ((deleteDeployment true id st).outcome = .deleted ∧
       (deleteDeployment true id st).downInvoked = true ∧
       lookupS id (deleteDeployment true id st).store.deployments = none)) ∧
    (d.status ≠ .running → ∀ downOk,
      (deleteDeployment downOk id st).outcome = .deleted ∧
      (deleteDeployment downOk id st).downInvoked = false ∧
      lookupS id (deleteDeployment downOk id st).store.deployments = none) ∧
    (∀ s, lookupS id (updateDeploymentStatus id s st).deployments =
      some { d with status := s }) := by
  refine ⟨?_, ?_, ?_⟩
  · intro hrun
    have e1 : deleteDeployment false id st =
        { outcome := .stopFailed, downInvoked := true, store := st } := by
      unfold deleteDeployment
      rw [h]
      dsimp only
      rw [if_pos hrun]
      rfl
    have e2 : deleteDeployment true id st =
        { outcome := .deleted, downInvoked := true
        , store := { deployments := removeKey id st.deployments
                   , logs := st.logs.filter (fun l => decide (l.deploymentID ≠ id)) } } := by
      unfold deleteDeployment
      rw [h]
      dsimp only
      rw [if_pos hrun]
      rfl
    refine ⟨e1, by rw [e2], by rw [e2], ?_⟩
    rw [e2]
    exact lookupS_removeKey id st.deployments
  · intro hrun downOk
    have e : deleteDeployment downOk id st =
        { outcome := .deleted, downInvoked := false
        , store := { deployments := removeKey id st.deployments
                   , logs := st.logs.filter (fun l => decide (l.deploymentID ≠ id)) } } := by
      unfold deleteDeployment
      rw [h]
      dsimp only
      rw [if_neg hrun]
    refine ⟨by rw [e], by rw [e], ?_⟩
    rw [e]
    exact lookupS_removeKey id st.deployments
  · intro s
    unfold updateDeploymentStatus
    simp only []
    rw [lookupS_updateStatus, h]
    rfl

/-- C3 amended witness: delete on a concrete `stopped` deployment succeeds and
removes the record without any stack teardown. -/
theorem C3_delete_and_status_semantics_witness :
    (deleteDeployment true "d2"
        { deployments := [("d2", { stackName := "demo2", status := .stopped })], logs := [] }).outcome
      = .deleted := by
  have h := C3_delete_and_status_semantics
    { deployments := [("d2", { stackName := "demo2", status := .stopped })], logs := [] }
    "d2" { stackName := "demo2", status := .stopped } (by rfl)
  exact (h.2.1 (by intro hc; cases hc) true).1

/-! ## C1, C5, C6, C7: evaluating the code at the failing inputs -/

/-- Initial database row written by `CreateBackup` for the C1 scenario. -/
def c1Row : BackupRec :=
  { id := "backup_1", status := .creating, sizeBytes := 0, storagePath := ""
  , deploymentIDs := ["d1"], completedAtSet := false }

/-- Filesystem state right after `CreateBackup` (staging directory exists). -/
def c1FS : BackupFS := { stagingExists := true, archiveState := .absent }

/-- C1: the deferred `updateBackupStatus(completed)` in `performBackup` runs on
every path, so the final status is `completed` for every combination of step
outcomes — including runs whose manifest, metadata or archive step failed, on
which the transient `failed` write is overwritten, the storage path stays
empty, the staging directory is left behind, and a partial archive can remain. -/
theorem C1_performBackup_marks_every_backup_completed :
    (∀ (depOks : List Bool) (metaOk archiveOk : Bool) (size : Int)
        (row : BackupRec) (fs : BackupFS),
      (performBackup depOks metaOk archiveOk size row fs).1.status = .completed) ∧
    ((performBackup [false] true true 0 c1Row c1FS).1.storagePath = "" ∧
     (performBackup [false] true true 0 c1Row c1FS).1.completedAtSet = true ∧
     (performBackup [false] true true 0 c1Row c1FS).2.stagingExists = true ∧
     (performBackup [false] true true 0 c1Row c1FS).2.archiveState = .absent) ∧
    (performBackup [true] true false 0 c1Row c1FS).2.archiveState = .partialFile := by
  refine ⟨?_, ⟨rfl, rfl, rfl, rfl⟩, rfl⟩
  intro depOks metaOk archiveOk size row fs
  simp only [performBackup, updateBackupStatus]

/-- Injector configuration used in the concrete C4/C5 scenarios. -/
def c5Cfg : NewtConfig :=
  { endpoint := "https://pangolin.example.com", newtID := "newt-id-1"
  , secret := "newt-secret-1", image := "" }

/-- A user service with no network memberships. -/
def c5WebSvc : ComposeService :=
  { image := "nginx:latest", containerName := "", restart := "", environment := []
  , ports := [], volumes := [], networks := [], dependsOn := [], healthCheck := none
  , labels := [] }

/-- A document that declares one network (`frontend`) but leaves `web` without
memberships. -/
def c5Doc : DockerCompose :=
  { version := "3"
  , services := [("web", c5WebSvc)]
  , networks := [("frontend", { driver := "bridge", external := false, name := "", labels := [] })]
  , volumes := [] }

/-- C5: on a document that already declares a network, injection wires `web`
and the synthesized newt service to `app_network` without ever declaring it —
the declared-network set stays `[frontend]`, so no service belongs to any
declared network, violating the claimed invariant. -/
theorem C5_injection_leaves_memberships_undeclared :
    (processDoc c5Cfg c5Doc).doc.networks.map Prod.fst = ["frontend"] ∧
    lookupS "web" (processDoc c5Cfg c5Doc).doc.services =
      some { c5WebSvc with networks := ["app_network"] } ∧
    lookupS "newt" (processDoc c5Cfg c5Doc).doc.services = some (createNewtService c5Cfg) ∧
    lookupS "app_network" (processDoc c5Cfg c5Doc).doc.networks = none := by
  refine ⟨rfl, rfl, rfl, rfl⟩

/-- Backup request with an empty deployment selection. -/
def c6Config : BackupConfig :=
  { name := "empty-selection", includeVolumes := false, encrypted := false, deployments := [] }

/-- C6: `CreateBackup` never invokes `BackupConfig.Validate`: with an empty
deployment selection it returns no error, persists a `creating` record and
creates the backup directory, and starts the capture — even though the
validator in the models package rejects exactly this input. -/
theorem C6_createBackup_accepts_empty_selection :
    (createBackup true true "backup_1" c6Config).err = none ∧
    (createBackup true true "backup_1" c6Config).record =
      some { id := "backup_1", status := .creating, sizeBytes := 0, storagePath := ""
           , deploymentIDs := [], completedAtSet := false } ∧
    (createBackup true true "backup_1" c6Config).dirCreated = true ∧
    (createBackup true true "backup_1" c6Config).captureStarted = true ∧
    backupConfigValidate c6Config = some .noDeployments := by
  refine ⟨rfl, rfl, rfl, rfl, rfl⟩

/-- A completed backup covering two deployments. -/
def c7Backup : BackupRec :=
  { id := "backup_1", status := .completed, sizeBytes := 10
  , storagePath := "backup_1.tar.gz", deploymentIDs := ["d1", "d2"], completedAtSet := true }

/-- A selective restore request with an empty deployment subset. -/
def c7Request : RestoreConfig :=
  { backupID := "backup_1", selective := true, deploymentIDs := []
  , overwriteExisting := false, restoreVolumes := false, testRestore := false }

/-- C7: `RestoreBackup` rejects a non-completed backup without extracting, but
it never invokes `RestoreConfig.Validate`: a selective request with an empty
deployment subset on a completed backup is accepted, the archive is extracted,
and nothing is restored — even though the models-package validator rejects
exactly this request. -/
theorem C7_restore_gating :
    restoreBackup true { c7Backup with status := .creating } c7Request =
      .error "backup is not completed" ∧
    restoreBackup true c7Backup c7Request =
      .ok { extractAttempted := true, extracted := true, restoredIDs := [] } ∧
    restoreConfigValidate c7Request = some .noDeployments := by
  refine ⟨rfl, ?_, rfl⟩
  rfl

/-! ## C8: the stack-name validator -/

theorem isValidStackName_eq_spec (name : String) :
    isValidStackName name = stackNameSpecOK name := by
  unfold isValidStackName stackNameSpecOK
  rcases hd : name.data with _ | ⟨c, rest⟩
  · simp
  · simp only [List.length_cons]
    by_cases h63 : rest.length + 1 > 63
    · have h63b : ¬(rest.length + 1 ≤ 63) := by omega
      simp [h63, h63b]
    · have h63b : rest.length + 1 ≤ 63 := by omega
      have h1 : 1 ≤ rest.length + 1 := by omega
      have hz : ¬(rest.length + 1 = 0) := by omega
      have hcond : ¬((decide (rest.length + 1 = 0) || decide (rest.length + 1 > 63)) = true) := by
        simp [hz, h63]
      rw [if_neg hcond, decide_eq_true h1, decide_eq_true h63b]
      simp only [Bool.true_and]
      cases hall : (c :: rest).all isStackCh <;> simp [hall]

/-- C8: the stack-name validator accepts exactly the strings of 1 to 63
characters that consist of alphanumerics, `-` and `_` and start with an
alphanumeric, as checked against the spec-worded grammar and at the spec's
five examples; and the creation-time validator rejects every configuration
whose stack name fails the validator. -/
theorem C8_stack_name_validator :
    (∀ name : String, isValidStackName name = stackNameSpecOK name) ∧
    isValidStackName "my-app_1" = true ∧
    isValidStackName "-leading" = false ∧
    isValidStackName "" = false ∧
    isValidStackName (String.mk (List.replicate 64 'a')) = false ∧
    isValidStackName "My App" = false ∧
    (∀ dc : DeploymentConfig, isValidStackName dc.stackName = false →
      deploymentConfigValidate dc ≠ none) := by
  refine ⟨isValidStackName_eq_spec, by decide, by decide, by decide, by decide, by decide, ?_⟩
  intro dc h
  unfold deploymentConfigValidate
  by_cases h1 : dc.templateID.trim = ""
  · simp [h1]
  · by_cases h2 : dc.stackName.trim = ""
    · simp [h1, h2]
    · simp [h1, h2, h]

/-- C8 witness: the concrete name `-leading` is rejected at creation. -/
theorem C8_stack_name_validator_witness :
    deploymentConfigValidate
      { templateID := "tmpl-1", stackName := "-leading", environment := []
      , newtConfig := none, autoStart := false, includeNewt := false } ≠ none :=
  C8_stack_name_validator.2.2.2.2.2.2 _ (by decide)

/-! ## C9, C10: the CFB stream layer -/

theorem xorBytes_length : ∀ a b : List Nat, (xorBytes a b).length = min a.length b.length := by
  intro a
  induction a with
  | nil => intro b; simp [xorBytes]
  | cons x as ih =>
    intro b
    cases b with
    | nil => simp [xorBytes]
    | cons y bs =>
      simp only [xorBytes, List.length_cons, ih]
      omega

theorem xorBytes_cancel : ∀ a b : List Nat, a.length ≤ b.length →
    xorBytes (xorBytes a b) b = a := by
  intro a
  induction a with
  | nil => intro b _; cases b <;> rfl
  | cons x as ih =>
    intro b h
    cases b with
    | nil => simp at h
    | cons y bs =>
      simp only [List.length_cons] at h
      simp only [xorBytes]
      rw [Nat.xor_cancel_right y x, ih bs (by omega)]

theorem cfbEncrypt_nil (E : List Nat → List Nat) (reg : List Nat) :
    cfbEncrypt E reg [] = [] := by
  rw [cfbEncrypt]
  simp

theorem cfbDecrypt_nil (E : List Nat → List Nat) (reg : List Nat) :
    cfbDecrypt E reg [] = [] := by
  rw [cfbDecrypt]
  simp

theorem cfbDecrypt_cfbEncrypt (E : List Nat → List Nat) (hE : ∀ b, (E b).length = 16) :
    ∀ n (p reg : List Nat), p.length ≤ n →
      cfbDecrypt E reg (cfbEncrypt E reg p) = p := by
  intro n
  induction n with
  | zero =>
    intro p reg hp
    have hpnil : p = [] := List.length_eq_zero.mp (Nat.le_zero.mp hp)
    subst hpnil
    rw [cfbEncrypt_nil, cfbDecrypt_nil]
  | succ n ih =>
    intro p reg hp
    by_cases hnil : p = []
    · subst hnil
      rw [cfbEncrypt_nil, cfbDecrypt_nil]
    · have hppos : 0 < p.length := List.length_pos.mpr hnil
      rw [cfbEncrypt, dif_neg hnil]
      by_cases hle : p.length ≤ 16
      · have htake : p.take 16 = p := List.take_of_length_le hle
        have hdrop : p.drop 16 = [] := List.drop_eq_nil_of_le hle
        rw [htake, hdrop, cfbEncrypt_nil, List.append_nil]
        have hclen : (xorBytes p (E reg)).length = p.length := by
          rw [xorBytes_length, hE reg]; omega
        have hcne : xorBytes p (E reg) ≠ [] := by
          intro h0
          rw [h0] at hclen
          simp at hclen
          omega
        rw [cfbDecrypt, dif_neg hcne]
        have hcle : (xorBytes p (E reg)).length ≤ 16 := by omega
        rw [List.take_of_length_le hcle, List.drop_eq_nil_of_le hcle,
          cfbDecrypt_nil, List.append_nil]
        exact xorBytes_cancel p (E reg) (by rw [hE reg]; omega)
      · have h16 : (xorBytes (p.take 16) (E reg)).length = 16 := by
          rw [xorBytes_length, List.length_take, hE reg]; omega
        have hcne : xorBytes (p.take 16) (E reg) ≠ [] := by
          intro h0
          rw [h0] at h16
          simp at h16
        have hargne : xorBytes (p.take 16) (E reg) ++
            cfbEncrypt E (xorBytes (p.take 16) (E reg)) (p.drop 16) ≠ [] := by
          intro h0
          rcases List.append_eq_nil.mp h0 with ⟨h1, _⟩
          exact hcne h1
        rw [cfbDecrypt, dif_neg hargne, List.take_left' h16, List.drop_left' h16]
        rw [ih (p.drop 16) (xorBytes (p.take 16) (E reg))
          (by rw [List.length_drop]; omega)]
        rw [xorBytes_cancel (p.take 16) (E reg)
          (by rw [hE reg, List.length_take]; omega)]
        exact List.take_append_drop 16 p

theorem cfbEncrypt_cons_head (E : List Nat → List Nat) (reg : List Nat)
    (p0 : Nat) (prest : List Nat) (e0 : Nat) (etail : List Nat)
    (hreg : E reg = e0 :: etail) :
    ∃ t, cfbEncrypt E reg (p0 :: prest) = (p0 ^^^ e0) :: t := by
  rw [cfbEncrypt, dif_neg (by simp)]
  rw [show (p0 :: prest).take 16 = p0 :: prest.take 15 from rfl, hreg]
  exact ⟨_, rfl⟩

theorem cfbDecrypt_cons_head (F : List Nat → List Nat) (reg : List Nat)
    (c0 : Nat) (crest : List Nat) (f0 : Nat) (ftail : List Nat)
    (hreg : F reg = f0 :: ftail) :
    ∃ t, cfbDecrypt F reg (c0 :: crest) = (c0 ^^^ f0) :: t := by
  rw [cfbDecrypt, dif_neg (by simp)]
  rw [show (c0 :: crest).take 16 = c0 :: crest.take 15 from rfl, hreg]
  exact ⟨_, rfl⟩

/-- C9: encrypt-then-decrypt is the identity — for every byte sequence, every
16-byte IV and every block transform (the AES cipher of the key), piping the
bytes through the encrypting reader (IV prepended) and then the decrypting
reader with the same transform reproduces the bytes exactly; and decrypting
with a different key whose cipher produces a different keystream block on that
IV does not reproduce a non-empty original. -/
theorem C9_encrypt_then_decrypt :
    (∀ (E : List Nat → List Nat) (iv p : List Nat),
      (∀ b, (E b).length = 16) → iv.length = 16 →
      decryptStream E (encryptStream E iv p) = some p) ∧
    (∀ (E F : List Nat → List Nat) (iv p : List Nat),
      (∀ b, (E b).length = 16) → (∀ b, (F b).length = 16) →
      iv.length = 16 → p ≠ [] →
      (F iv).head? ≠ (E iv).head? →
      decryptStream F (encryptStream E iv p) ≠ some p) := by
  constructor
  · intro E iv p hE hiv
    unfold encryptStream decryptStream
    rw [if_neg (by rw [List.length_append, hiv]; omega)]
    rw [List.take_left' hiv, List.drop_left' hiv]
    rw [cfbDecrypt_cfbEncrypt E hE p.length p iv (le_refl _)]
  · intro E F iv p hE hF hiv hp hdiff
    cases p with
    | nil => exact absurd rfl hp
    | cons p0 prest =>
      rcases hEiv : E iv with _ | ⟨e0, etail⟩
      · have := hE iv
        rw [hEiv] at this
        simp at this
      · rcases hFiv : F iv with _ | ⟨f0, ftail⟩
        · have := hF iv
          rw [hFiv] at this
          simp at this
        · have hf0e0 : f0 ≠ e0 := by
            rw [hFiv, hEiv] at hdiff
            simp at hdiff
            exact hdiff
          intro heq
          unfold encryptStream decryptStream at heq
          rw [if_neg (by rw [List.length_append, hiv]; omega)] at heq
          rw [List.take_left' hiv, List.drop_left' hiv] at heq
          rcases cfbEncrypt_cons_head E iv p0 prest e0 etail hEiv with ⟨t1, he⟩
          rw [he] at heq
          rcases cfbDecrypt_cons_head F iv (p0 ^^^ e0) t1 f0 ftail hFiv with ⟨t2, hd⟩
          rw [hd] at heq
          have hhead : (p0 ^^^ e0) ^^^ f0 = p0 := by
            have := Option.some.inj heq
            exact (List.cons.inj this).1
          have hx : (p0 ^^^ e0) ^^^ f0 = (p0 ^^^ e0) ^^^ e0 := by
            rw [hhead, Nat.xor_cancel_right e0 p0]
          have h2 : (p0 ^^^ e0) ^^^ ((p0 ^^^ e0) ^^^ f0) =
              (p0 ^^^ e0) ^^^ ((p0 ^^^ e0) ^^^ e0) := by rw [hx]
          rw [Nat.xor_cancel_left, Nat.xor_cancel_left] at h2
          exact hf0e0 h2

/-- C9 witness: a concrete round trip with a one-byte message, the all-zero
IV and a constant keystream block, and a failed recovery under a transform
whose first keystream byte differs. -/
theorem C9_encrypt_then_decrypt_witness :
    decryptStream (fun _ => List.replicate 16 0)
      (encryptStream (fun _ => List.replicate 16 0) (List.replicate 16 0) [5]) = some [5] ∧
    decryptStream (fun _ => 1 :: List.replicate 15 0)
      (encryptStream (fun _ => List.replicate 16 0) (List.replicate 16 0) [5]) ≠ some [5] := by
  constructor
  · exact C9_encrypt_then_decrypt.1 (fun _ => List.replicate 16 0)
      (List.replicate 16 0) [5] (fun _ => by simp) (by simp)
  · exact C9_encrypt_then_decrypt.2 (fun _ => List.replicate 16 0)
      (fun _ => 1 :: List.replicate 15 0) (List.replicate 16 0) [5]
      (fun _ => by simp) (fun _ => by simp) (by simp) (by simp) (by decide)

/-- C10: key verification cannot distinguish keys — for every archive holding
at least one 16-byte block (so the IV read succeeds), `VerifyKey` returns
success for every key of valid AES length, whatever block transform that key
induces, because CFB stream decryption produces no error on mismatched keys. -/
theorem C10_verifyKey_accepts_any_key (E : List Nat → List Nat) (keyLen : Nat)
    (data : List Nat) (hlen : 16 ≤ data.length)
    (hkey : validAesKeyLen keyLen = true) :
    verifyKey E keyLen data = .ok () := by
  unfold verifyKey
  have ht : (data.take 1024).length = min 1024 data.length := List.length_take 1024 data
  have hne0 : ¬((data.take 1024).length = 0) := by omega
  have hnlt : ¬((data.take 1024).length < 16) := by omega
  have hkf : ¬(validAesKeyLen keyLen = false) := by rw [hkey]; simp
  simp only [if_neg hne0, if_neg hnlt, if_neg hkf]

/-- C10 witness: a 16-byte archive is accepted with an arbitrary 16-byte key's
transform. -/
theorem C10_verifyKey_accepts_any_key_witness :
    verifyKey (fun _ => List.replicate 16 7) 16 (List.replicate 16 1) = .ok () :=
  C10_verifyKey_accepts_any_key (fun _ => List.replicate 16 7) 16
    (List.replicate 16 1) (by simp) (by decide)

/-! ## C4: substring lemmas for issue messages, and the injection report -/

theorem listStartsWith_self_append : ∀ n r : List Char, listStartsWith n (n ++ r) = true := by
  intro n
  induction n with
  | nil => intro r; rfl
  | cons a as ih => intro r; simp [listStartsWith, ih]

theorem listContainsSub_self_append (n r : List Char) : listContainsSub n (n ++ r) = true := by
  cases n with
  | nil => cases r <;> simp [listContainsSub, listStartsWith]
  | cons a as =>
    have h := listStartsWith_self_append (a :: as) r
    simp only [List.cons_append] at h
    simp [listContainsSub, h]

theorem listContainsSub_cons (n : List Char) (b : Char) (l : List Char)
    (h : listContainsSub n l = true) : listContainsSub n (b :: l) = true := by
  simp [listContainsSub, h]

theorem listContainsSub_append_left (n : List Char) :
    ∀ (a l : List Char), listContainsSub n l = true → listContainsSub n (a ++ l) = true := by
  intro a
  induction a with
  | nil => intro l h; exact h
  | cons x xs ih =>
    intro l h
    simp only [List.cons_append]
    exact listContainsSub_cons n x _ (ih l h)

theorem strContains_append_right (a b m : String) (h : strContains b m = true) :
    strContains (a ++ b) m = true := by
  unfold strContains at h ⊢
  rw [String.data_append]
  exact listContainsSub_append_left m.data a.data b.data h

theorem joinSep_contains (sep : String) :
    ∀ (l : List String) (m : String), m ∈ l → strContains (joinSep sep l) m = true := by
  intro l
  induction l with
  | nil => intro m hm; simp at hm
  | cons x xs ih =>
    intro m hm
    cases xs with
    | nil =>
      have hmx : m = x := by simpa using hm
      subst hmx
      show strContains (joinSep sep [m]) m = true
      unfold strContains joinSep
      have := listContainsSub_self_append m.data []
      rwa [List.append_nil] at this
    | cons y ys =>
      rcases List.mem_cons.mp hm with hmx | hm2
      · subst hmx
        show strContains (m ++ sep ++ joinSep sep (y :: ys)) m = true
        unfold strContains
        rw [String.data_append, String.data_append, List.append_assoc]
        exact listContainsSub_self_append m.data _
      · have h := ih m hm2
        show strContains (x ++ sep ++ joinSep sep (y :: ys)) m = true
        unfold strContains at h ⊢
        rw [String.data_append, String.data_append, List.append_assoc]
        exact listContainsSub_append_left m.data x.data _
          (listContainsSub_append_left m.data sep.data _ h)

theorem validateNewtService_missing (s : ComposeService) (h1 : s.image ≠ "")
    (h2 : strContains s.image "newt" = true) (h3 : missingEnvs s ≠ []) :
    validateNewtService s =
      some ("missing required environment variables: " ++ joinSep ", " (missingEnvs s)) := by
  have h3b : (missingEnvs s).isEmpty = false := by
    cases hmE : missingEnvs s with
    | nil => exact absurd hmE h3
    | cons a as => rfl
  simp [validateNewtService, h1, h2, h3b]

theorem validateCompose_of_newt_err (d : DockerCompose) (s : ComposeService) (msg : String)
    (hl : lookupS "newt" d.services = some s) (hv : validateNewtService s = some msg) :
    (validateCompose d).issues = ["Newt service configuration error: " ++ msg] ∧
    (validateCompose d).valid = false := by
  have hne : d.services.isEmpty = false := by
    cases hsv : d.services with
    | nil => rw [hsv] at hl; simp [lookupS] at hl
    | cons a l => rfl
  unfold validateCompose
  rw [hl]
  dsimp only
  rw [hv]
  simp [hne]

theorem processReport_valid_of_newt_err (d : DockerCompose) (s : ComposeService) (msg : String)
    (hl : lookupS "newt" d.services = some s) (hv : validateNewtService s = some msg) :
    (processReport d).valid = false := by
  unfold processReport
  rw [hl]
  dsimp only
  rw [hv]
  dsimp only
  rcases validateCompose_of_newt_err d s msg hl hv with ⟨hiss, _⟩
  rw [hiss]
  rfl

/-- A newt service with a recognizable image and socket mount but no
`NEWT_ID` environment variable. -/
def c4NewtMissing : ComposeService :=
  { image := "fosrl/newt:latest", containerName := "newt", restart := "unless-stopped"
  , environment := ["PANGOLIN_ENDPOINT=https://pangolin.example.com", "NEWT_SECRET=s3cret"]
  , ports := [], volumes := ["/var/run/docker.sock:/var/run/docker.sock:ro"]
  , networks := ["app_network"], dependsOn := [], healthCheck := none, labels := [] }

/-- A document whose only service is the incomplete newt service. -/
def c4Doc : DockerCompose :=
  { version := "3"
  , services := [("newt", c4NewtMissing)]
  , networks := [("app_network", { driver := "bridge", external := false, name := "", labels := [] })]
  , volumes := [] }

/-- The same incomplete newt service with an unrecognizable image. -/
def c4BadImage : ComposeService :=
  { c4NewtMissing with image := "nginx:latest" }

/-- A document whose newt service has both a bad image and a missing variable. -/
def c4BadImageDoc : DockerCompose :=
  { c4Doc with services := [("newt", c4BadImage)] }

/-- C4 counterexample: on a newt service missing `NEWT_ID`, `ProcessCompose`
returns a report with `Valid = false` (the claim requires `true`); and when
the image check fails too, validation reports only the image issue, so no
issue names the missing variable. -/
theorem C4_inject_reports_invalid_counterexample :
    (processDoc c5Cfg c4Doc).result.valid = false ∧
    (∀ issue ∈ (validateCompose c4BadImageDoc).issues, strContains issue "NEWT_ID" = false) ∧
    (validateCompose c4BadImageDoc).valid = false := by
  refine ⟨by decide, by decide, by decide⟩

/-- C4 amended: if the existing newt service passes the image check (non-empty
image containing "newt") but misses required environment variables, then the
read-only validation reports `Valid = false` with an issue naming every
missing variable (the image check runs first, so a bad image masks the
variable report); and `ProcessCompose` replaces the service wholesale with the
synthesized one while the returned report keeps `Valid = false`, because
issues found in the input are retained. -/
theorem C4_validate_and_inject_amended (cfg : NewtConfig) (d : DockerCompose)
    (s : ComposeService) (hl : lookupS "newt" d.services = some s)
    (h1 : s.image ≠ "") (h2 : strContains s.image "newt" = true)
    (h3 : missingEnvs s ≠ []) :
    ((validateCompose d).valid = false ∧
     ∀ m ∈ missingEnvs s, ∃ issue ∈ (validateCompose d).issues, strContains issue m = true) ∧
    (lookupS "newt" (processDoc cfg d).doc.services = some (createNewtService cfg) ∧
     (processDoc cfg d).result.valid = false) := by
  have hv := validateNewtService_missing s h1 h2 h3
  rcases validateCompose_of_newt_err d s _ hl hv with ⟨hiss, hval⟩
  refine ⟨⟨hval, ?_⟩, ?_, ?_⟩
  · intro m hm
    refine ⟨"Newt service configuration error: " ++
      ("missing required environment variables: " ++ joinSep ", " (missingEnvs s)), ?_, ?_⟩
    · rw [hiss]; simp
    · exact strContains_append_right _ _ _ (strContains_append_right _ _ _
        (joinSep_contains ", " (missingEnvs s) m hm))
  · have hstep : injectStep cfg d.services = setS "newt" (createNewtService cfg) d.services :=
      injectStep_of_invalid hl hv
    show lookupS "newt"
        ((injectStep cfg d.services).map (fun q => (q.1, addAppNetwork q.2))) =
      some (createNewtService cfg)
    rw [hstep, lookupS_map_val, lookupS_setS_self]
    simp [addAppNetwork_createNewtService]
  · exact processReport_valid_of_newt_err d s _ hl hv

/-- C4 amended witness: the concrete incomplete newt document is reported
invalid and invalid again after injection. -/
theorem C4_validate_and_inject_amended_witness :
    (validateCompose c4Doc).valid = false ∧
    (processDoc c5Cfg c4Doc).result.valid = false := by
  have h := C4_validate_and_inject_amended c5Cfg c4Doc c4NewtMissing
    (by rfl) (by decide) (by decide) (by decide)
  exact ⟨h.1.1, h.2.2⟩
